import Mathlib

/-!
Verification of the pacman package generator (src/pacman/generator.go) of
libpackagebuild.  The generator's own logic (version formatting, control
record assembly, backup markers, install scripts, build orchestration) is
translated directly from the Go source.  External collaborators of this
package (the generic package/filesystem model, the relationship compiler,
the mtree writer, the tar.xz serializer) are not part of the source tree
and are modelled from the specification; each such definition carries a
doc comment starting with "Modelled from the spec:".
-/

namespace Pacman

/-- Modelled from the spec: the architecture enumeration of the external
package model; its variants are exactly the keys of the source's archMap. -/
inductive Architecture where
  | any
  | i386
  | x86_64
  | armv5
  | armv6h
  | armv7h
  | aarch64
deriving DecidableEq

/-- The archMap table from the source: target-format architecture strings. -/
def archMap : Architecture → String
  | .any => "any"
  | .i386 => "i686"
  | .x86_64 => "x86_64"
  | .armv5 => "arm"
  | .armv6h => "armv6h"
  | .armv7h => "armv7h"
  | .aarch64 => "aarch64"

/-- Modelled from the spec: a payload-tree node is a tagged union of
regular file (content, mode), directory and symlink. -/
inductive Node where
  | regularFile (content : String) (mode : Nat)
  | directory (mode : Nat)
  | symlink (target : String)
deriving DecidableEq

/-- Modelled from the spec: the payload tree is an ordered mapping from
archive-relative path to node.  The flat association list doubles as the
result of the tree-walk capability (pairs of relative path and node). -/
abbrev FSTree : Type := List (String × Node)

/-- Lookup of a path in the payload tree. -/
def FSTree.get? : FSTree → String → Option Node
  | [], _ => none
  | (k, n) :: rest, key => if key = k then some n else FSTree.get? rest key

/-- Insertion of a member into the payload tree (update or append),
the model of the Go map assignment on Entries. -/
def FSTree.set : FSTree → String → Node → FSTree
  | [], key, node => [(key, node)]
  | (k, n) :: rest, key, node =>
      if k = key then (k, node) :: rest
      else (k, n) :: FSTree.set rest key node

/-- Modelled from the spec: an optional version constraint of a
relationship entry, an operator plus a version string. -/
structure VersionConstraint where
  relation : String
  version : String
deriving DecidableEq

/-- Modelled from the spec: a relationship entry with a target name
(possibly carrying modifier prefixes) and an optional version constraint. -/
structure PackageRelation where
  relatedPackage : String
  constraint : Option VersionConstraint
deriving DecidableEq

/-- Modelled from the spec: the external, caller-owned package record. -/
structure Package where
  name : String
  version : String
  release : Nat
  epoch : Nat
  description : String
  author : String
  architecture : Architecture
  replaces : List PackageRelation
  conflicts : List PackageRelation
  provides : List PackageRelation
  requires : List PackageRelation
  setupScript : String
  cleanupScript : String
  fsRoot : FSTree

/-- The fullVersionString function from the source: version-release,
with an epoch prefix exactly when the epoch is positive. -/
def fullVersionString (pkg : Package) : String :=
  let str := pkg.version ++ "-" ++ toString pkg.release
  if pkg.epoch > 0 then toString pkg.epoch ++ ":" ++ str else str

/-- The RecommendedFileName method from the source. -/
def RecommendedFileName (pkg : Package) : String :=
  pkg.name ++ "-" ++ fullVersionString pkg ++ "-" ++
    archMap pkg.architecture ++ ".pkg.tar.xz"

/-- Character class of the Go regexp escape backslash-s
(tab, newline, form feed, carriage return, space). -/
def isRxSpace (c : Char) : Bool :=
  c = '\t' || c = '\n' || c = '\x0c' || c = '\r' || c = ' '

/-- The whitespace test of strings.TrimSpace (unicode.IsSpace): the
Unicode White_Space code points U+0009 through U+000D, U+0020, U+0085,
U+00A0, U+1680, U+2000 through U+200A, U+2028, U+2029, U+202F, U+205F
and U+3000. -/
def isGoSpace (c : Char) : Bool :=
  isRxSpace c || c = '\x0b' || c = '\u0085' || c = '\u00A0' || c = '\u1680' ||
    ('\u2000' ≤ c && c ≤ '\u200A') || c = '\u2028' || c = '\u2029' ||
    c = '\u202F' || c = '\u205F' || c = '\u3000'

/-- Leading and trailing whitespace removal (strings.TrimSpace). -/
def trimSpace (l : List Char) : List Char :=
  ((l.dropWhile isGoSpace).reverse.dropWhile isGoSpace).reverse

/-- Replacement of every maximal whitespace run by one space, the model of
ReplaceAllString with the whitespace-run pattern; the flag records whether
the previous character belonged to the current run. -/
def collapseRuns : Bool → List Char → List Char
  | _, [] => []
  | prevSpace, c :: rest =>
      if isRxSpace c then
        if prevSpace then collapseRuns true rest
        else ' ' :: collapseRuns true rest
      else c :: collapseRuns false rest

/-- Description normalization from writePKGINFO: trim, then collapse
whitespace runs to single spaces. -/
def normalizeDescription (s : String) : String :=
  ⟨collapseRuns false (trimSpace s.data)⟩

/-- Character class of the version regexp in Validate: [a-zA-Z0-9._]. -/
def isVersionChar (c : Char) : Bool :=
  c.isAlpha || c.isDigit || c = '.' || c = '_'

/-- Matcher for the release segment [1-9][0-9]* of the RelatedVersion
regexp in Validate. -/
def isReleaseNum : List Char → Bool
  | [] => false
  | c :: rest => ('1' ≤ c && c ≤ '9') && rest.all Char.isDigit

/-- Matcher for the body-plus-optional-release fragment of the
RelatedVersion regexp: [a-zA-Z0-9._]+ followed by an optional
hyphen-release suffix. -/
def matchBodyRelease (l : List Char) : Bool :=
  (!(l.takeWhile isVersionChar).isEmpty) &&
    (match l.dropWhile isVersionChar with
     | [] => true
     | '-' :: r => isReleaseNum r
     | _ => false)

/-- Colon occurrence test used by the RelatedVersion matcher. -/
def hasColon (l : List Char) : Bool := l.any fun c => c == ':'

/-- Matcher for the full RelatedVersion regexp of Validate: an optional
epoch prefix [0-9]+ and a colon, then version body and optional release. -/
def matchRelatedVersion (l : List Char) : Bool :=
  if hasColon l then
    (!(l.takeWhile Char.isDigit).isEmpty) &&
      (match l.dropWhile Char.isDigit with
       | ':' :: r => matchBodyRelease r
       | _ => false)
  else matchBodyRelease l

/-- First-character class of the name regexp in Validate: [a-z0-9@._+]. -/
def isNameStartChar (c : Char) : Bool :=
  c.isLower || c.isDigit || c = '@' || c = '.' || c = '_' || c = '+'

/-- Later-character class of the name regexp in Validate: [a-z0-9@._+-]. -/
def isNameChar (c : Char) : Bool :=
  isNameStartChar c || c = '-'

/-- Matcher for the bare package-name regexp of Validate. -/
def matchBareName : List Char → Bool
  | [] => false
  | c :: rest => isNameStartChar c && rest.all isNameChar

/-- Matcher for the RelatedName regexp of Validate: optional literal
modifier prefixes, then a bare name. -/
def matchRelatedName (l : List Char) : Bool :=
  let l1 := if ("except:".data).isPrefixOf l then l.drop 7 else l
  let l2 := if ("group:".data).isPrefixOf l1 then l1.drop 6 else l1
  matchBareName l2

/-- Modelled from the spec: the Relationship Compiler renders one entry as
label, space-equals-space, name, and the operator and version when a
constraint is present; it fails when the name or the constraint version
falls outside the target grammar. -/
def compileRelation (label : String) (rel : PackageRelation) : Except String String :=
  if matchRelatedName rel.relatedPackage.data then
    match rel.constraint with
    | none => .ok (label ++ " = " ++ rel.relatedPackage ++ "\n")
    | some c =>
        if matchRelatedVersion c.version.data then
          .ok (label ++ " = " ++ rel.relatedPackage ++ c.relation ++ c.version ++ "\n")
        else .error ("invalid version in package relation: " ++ c.version)
  else .error ("invalid package relation: " ++ rel.relatedPackage)

/-- Modelled from the spec: the Relationship Compiler maps the entries in
input order and propagates the first grammar violation. -/
def compilePackageRequirements (label : String) : List PackageRelation → Except String String
  | [] => .ok ""
  | rel :: rest =>
      match compileRelation label rel with
      | .error e => .error e
      | .ok line =>
          match compilePackageRequirements label rest with
          | .error e => .error e
          | .ok more => .ok (line ++ more)

/-- Modelled from the spec: installed-size accounting over the payload
tree, a capability of the external filesystem collaborator. -/
def InstalledSizeInBytes (t : FSTree) : Nat :=
  (t.map fun e =>
    match e.2 with
    | Node.regularFile c _ => c.length
    | _ => 0).sum

/-- Byte-order comparison of character lists, the model of the ordering
used by sort.Strings (UTF-8 byte order agrees with code-point order). -/
def lexLe : List Char → List Char → Bool
  | [], _ => true
  | _ :: _, [] => false
  | a :: as, b :: bs => if a < b then true else if b < a then false else lexLe as bs

/-- Byte-order comparison of strings (sort.Strings order). -/
def strLe (a b : String) : Bool := lexLe a.data b.data

/-- The sorting relation of the model: strLe as a proposition. -/
def StrLeR (a b : String) : Prop := strLe a b = true

instance : DecidableRel StrLeR := fun a b =>
  inferInstanceAs (Decidable (strLe a b = true))

/-- Modelled from the spec: the tree-walk capability yielding pairs of
relative path and node; the flat tree model is its own walk. -/
def WalkFSWithRelativePaths (t : FSTree) : List (String × Node) := t

/-- The per-entry selection of compileBackupMarkers: regular files only,
excluding paths with the reserved literal prefix. -/
def backupLine : String × Node → Option String
  | (path, Node.regularFile _ _) =>
      if ("usr/share/holo/".data).isPrefixOf path.data then none
      else some ("backup = " ++ path ++ "\n")
  | _ => none

/-- The compileBackupMarkers function from the source: collect one line
per qualifying regular file, sort, join. -/
def compileBackupMarkers (walk : List (String × Node)) : String :=
  String.join (List.insertionSort StrLeR (walk.filterMap backupLine))

/-- The contents assembly of writePKGINFO from the source: the four
relationship blocks are compiled in source order with fail-fast errors,
and the lines are concatenated in the fixed source order. -/
def pkginfoContents (pkg : Package) (tree : FSTree) : Except String String :=
  match compilePackageRequirements "replaces" pkg.replaces with
  | .error e => .error e
  | .ok replaces =>
  match compilePackageRequirements "conflict" pkg.conflicts with
  | .error e => .error e
  | .ok conflicts =>
  match compilePackageRequirements "provides" pkg.provides with
  | .error e => .error e
  | .ok provides =>
  match compilePackageRequirements "depend" pkg.requires with
  | .error e => .error e
  | .ok requires =>
  .ok ("# Generated by holo-build\n" ++
    ("pkgname = " ++ pkg.name ++ "\n") ++
    ("pkgver = " ++ fullVersionString pkg ++ "\n") ++
    ("pkgdesc = " ++ normalizeDescription pkg.description ++ "\n") ++
    "url = \n" ++
    (if pkg.author = "" then "packager = Unknown Packager\n"
     else "packager = " ++ pkg.author ++ "\n") ++
    ("size = " ++ toString (InstalledSizeInBytes tree) ++ "\n") ++
    ("arch = " ++ archMap pkg.architecture ++ "\n") ++
    "license = custom:none\n" ++
    replaces ++ conflicts ++ provides ++
    compileBackupMarkers (WalkFSWithRelativePaths tree) ++
    requires ++
    "makedepend = holo-build\n" ++
    "makepkgopt = !strip\n" ++
    "makepkgopt = docs\n" ++
    "makepkgopt = libtool\n" ++
    "makepkgopt = staticlibs\n" ++
    "makepkgopt = emptydirs\n" ++
    "makepkgopt = !zipman\n" ++
    "makepkgopt = !purge\n" ++
    "makepkgopt = !upx\n" ++
    "makepkgopt = !debug\n")

/-- The writePKGINFO function from the source in state-passing form: on
success the control record is inserted at its reserved path with mode
0644, on failure the tree is returned unchanged with the error. -/
def writePKGINFO (pkg : Package) (tree : FSTree) : FSTree × Option String :=
  match pkginfoContents pkg tree with
  | .error e => (tree, some e)
  | .ok contents => (tree.set ".PKGINFO" (Node.regularFile contents 0o644), none)

/-- The writeINSTALL function from the source: hook wrappers for the
non-empty lifecycle script bodies; no member when both are empty. -/
def writeINSTALL (pkg : Package) (tree : FSTree) : FSTree :=
  let contents :=
    (if pkg.setupScript ≠ "" then
      "post_install() \x7b\n" ++ pkg.setupScript ++
        "\n\x7d\npost_upgrade() \x7b\npost_install\n\x7d\n"
     else "") ++
    (if pkg.cleanupScript ≠ "" then
      "post_remove() \x7b\n" ++ pkg.cleanupScript ++ "\n\x7d\n"
     else "")
  if contents = "" then tree
  else tree.set ".INSTALL" (Node.regularFile contents 0o644)

/-- Modelled from the spec: the Manifest Writer renders a deterministic,
sorted description of every entry of the final tree; the pure model has
no I/O failure source, so it always succeeds. -/
def makeMTREE (tree : FSTree) : Except String String :=
  .ok (String.join
    (List.insertionSort StrLeR (tree.map fun e => "./" ++ e.1 ++ "\n")))

/-- The writeMTREE function from the source in state-passing form. -/
def writeMTREE (tree : FSTree) : FSTree × Option String :=
  match makeMTREE tree with
  | .error e => (tree, some e)
  | .ok contents => (tree.set ".MTREE" (Node.regularFile contents 0o644), none)

/-- Modelled from the spec: PrepareBuild is the pre-build normalization
hook of the external package model; the spec gives it no observable
effect on the data used by this generator, so it is the identity. -/
def PrepareBuild (pkg : Package) : Package := pkg

/-- Modelled from the spec: archive serialization produces the container
bytes or an error and, per the error-handling design, no partial output;
this concrete serializer is a deterministic placeholder that always
succeeds. -/
def ToTarXZArchive (tree : FSTree) : List Nat × Option String :=
  ((String.join (tree.map fun e => e.1 ++ "\x00")).toList.map Char.toNat, none)

/-- The Build method from the source, parametrized by the external
archive serializer: PrepareBuild, then the three writers in order, then
serialization; writer errors are wrapped with the member name and return
nil bytes. -/
def BuildWith (archive : FSTree → List Nat × Option String)
    (pkg : Package) : List Nat × Option String :=
  let pkg := PrepareBuild pkg
  match writePKGINFO pkg pkg.fsRoot with
  | (_, some e) => ([], some ("Failed to write .PKGINFO: " ++ e))
  | (t1, none) =>
      let t2 := writeINSTALL pkg t1
      match writeMTREE t2 with
      | (_, some e) => ([], some ("Failed to write .MTREE: " ++ e))
      | (t3, none) => archive t3

/-- The Build method with the concrete modelled serializer. -/
def Build (pkg : Package) : List Nat × Option String :=
  BuildWith ToTarXZArchive pkg

/-- A small valid package used to instantiate universally quantified
theorems at concrete inputs. -/
def pkgBasic : Package :=
  { name := "foo"
    version := "1.0"
    release := 1
    epoch := 0
    description := "  a  demo\tpackage "
    author := ""
    architecture := .x86_64
    replaces := []
    conflicts := []
    provides := []
    requires := []
    setupScript := ""
    cleanupScript := ""
    fsRoot := [("usr", Node.directory 0o755),
               ("usr/bin", Node.directory 0o755),
               ("usr/bin/foo", Node.regularFile "#!/bin/sh\n" 0o755)] }

/-- The same package with a positive epoch. -/
def pkgEpoch : Package :=
  { pkgBasic with epoch := 2 }

/-- A package with one relation of every kind and both lifecycle
scripts. -/
def pkgRel : Package :=
  { pkgBasic with
    replaces := [{ relatedPackage := "oldpkg", constraint := none }]
    conflicts := [{ relatedPackage := "otherpkg", constraint := none }]
    provides := [{ relatedPackage := "virt",
                   constraint := some { relation := "=", version := "1.0" } }]
    requires := [{ relatedPackage := "dep",
                   constraint := some { relation := ">=", version := "2:3.1-4" } }]
    setupScript := "echo setup"
    cleanupScript := "echo cleanup" }

/-- A package whose first relationship entry violates the name grammar. -/
def pkgBadRel : Package :=
  { pkgBasic with
    replaces := [{ relatedPackage := "Bad Name", constraint := none }] }

/-- A package with no setup script and a cleanup script. -/
def pkgCleanupOnly : Package :=
  { pkgBasic with cleanupScript := "echo bye" }

/-! ### Helper lemmas -/

theorem get?_set_self (t : FSTree) (k : String) (n : Node) :
    (t.set k n).get? k = some n := by
  induction t with
  | nil => simp [FSTree.set, FSTree.get?]
  | cons e rest ih =>
      obtain ⟨k0, n0⟩ := e
      by_cases h : k0 = k
      · subst h
        simp [FSTree.set, FSTree.get?]
      · simp [FSTree.set, FSTree.get?, h, Ne.symm h, ih]

theorem mem_takeWhile {p : α → Bool} :
    ∀ {l : List α} {a : α}, a ∈ l.takeWhile p → p a = true := by
  intro l
  induction l with
  | nil => intro a h; simp [List.takeWhile] at h
  | cons x xs ih =>
      intro a h
      rw [List.takeWhile_cons] at h
      by_cases hx : p x
      · rw [if_pos hx] at h
        rcases List.mem_cons.1 h with rfl | hmem
        · exact hx
        · exact ih hmem
      · rw [if_neg hx] at h
        simp at h

theorem lexLe_cons_iff {a b : Char} {as bs : List Char} :
    lexLe (a :: as) (b :: bs) = true ↔ a < b ∨ (a = b ∧ lexLe as bs = true) := by
  by_cases hab : a < b
  · simp [lexLe, hab]
  · by_cases hba : b < a
    · have hne : a ≠ b := fun h => absurd (h ▸ hba) (lt_irrefl a)
      simp [lexLe, hab, hba, hne]
    · have heq : a = b := le_antisymm (not_lt.1 hba) (not_lt.1 hab)
      subst heq
      simp [lexLe, hab]

theorem lexLe_total : ∀ a b : List Char, lexLe a b = true ∨ lexLe b a = true
  | [], _ => Or.inl rfl
  | _ :: _, [] => Or.inr rfl
  | a :: as, b :: bs => by
      rcases lt_trichotomy a b with h | h | h
      · exact Or.inl (lexLe_cons_iff.2 (Or.inl h))
      · subst h
        rcases lexLe_total as bs with ht | ht
        · exact Or.inl (lexLe_cons_iff.2 (Or.inr ⟨rfl, ht⟩))
        · exact Or.inr (lexLe_cons_iff.2 (Or.inr ⟨rfl, ht⟩))
      · exact Or.inr (lexLe_cons_iff.2 (Or.inl h))

theorem lexLe_trans :
    ∀ a b c : List Char, lexLe a b = true → lexLe b c = true → lexLe a c = true
  | [], _, _, _, _ => rfl
  | _ :: _, [], _, h1, _ => by simp [lexLe] at h1
  | _ :: _, _ :: _, [], _, h2 => by simp [lexLe] at h2
  | a :: as, b :: bs, c :: cs, h1, h2 => by
      rcases lexLe_cons_iff.1 h1 with hlt1 | ⟨rfl, ht1⟩
      · rcases lexLe_cons_iff.1 h2 with hlt2 | ⟨rfl, _⟩
        · exact lexLe_cons_iff.2 (Or.inl (lt_trans hlt1 hlt2))
        · exact lexLe_cons_iff.2 (Or.inl hlt1)
      · rcases lexLe_cons_iff.1 h2 with hlt2 | ⟨rfl, ht2⟩
        · exact lexLe_cons_iff.2 (Or.inl hlt2)
        · exact lexLe_cons_iff.2 (Or.inr ⟨rfl, lexLe_trans as bs cs ht1 ht2⟩)

theorem lexLe_antisymm :
    ∀ a b : List Char, lexLe a b = true → lexLe b a = true → a = b
  | [], [], _, _ => rfl
  | [], _ :: _, _, h2 => by simp [lexLe] at h2
  | _ :: _, [], h1, _ => by simp [lexLe] at h1
  | a :: as, b :: bs, h1, h2 => by
      rcases lexLe_cons_iff.1 h1 with hlt1 | ⟨heq1, ht1⟩
      · rcases lexLe_cons_iff.1 h2 with hlt2 | ⟨heq2, _⟩
        · exact absurd hlt2 (lt_asymm hlt1)
        · exact absurd (heq2 ▸ hlt1) (lt_irrefl b)
      · rcases lexLe_cons_iff.1 h2 with hlt2 | ⟨heq2, ht2⟩
        · exact absurd (heq1 ▸ hlt2) (lt_irrefl b)
        · rw [heq1, lexLe_antisymm as bs ht1 ht2]

theorem string_eq_of_data {s t : String} (h : s.data = t.data) : s = t :=
  congrArg String.mk h

instance : IsTotal String StrLeR :=
  ⟨fun a b => lexLe_total a.data b.data⟩

instance : IsTrans String StrLeR :=
  ⟨fun a b c => lexLe_trans a.data b.data c.data⟩

instance : IsAntisymm String StrLeR :=
  ⟨fun a b h1 h2 => string_eq_of_data (lexLe_antisymm a.data b.data h1 h2)⟩

theorem digitChar_ne_colon (n : Nat) : Nat.digitChar n ≠ ':' := by
  by_cases h : n < 16
  · interval_cases n <;> decide
  · unfold Nat.digitChar
    repeat rw [if_neg (by omega)]
    decide

theorem toDigitsCore_ne_colon (b : Nat) :
    ∀ (f n : Nat) (acc : List Char), (∀ c ∈ acc, c ≠ ':') →
      ∀ c ∈ Nat.toDigitsCore b f n acc, c ≠ ':'
  | 0, n, acc, hacc => by
      intro c hc
      rw [Nat.toDigitsCore] at hc
      exact hacc c hc
  | f + 1, n, acc, hacc => by
      intro c hc
      rw [Nat.toDigitsCore] at hc
      have hcons : ∀ x ∈ Nat.digitChar (n % b) :: acc, x ≠ ':' := by
        intro x hx
        rcases List.mem_cons.1 hx with rfl | hmem
        · exact digitChar_ne_colon _
        · exact hacc x hmem
      by_cases hz : n / b = 0
      · rw [if_pos hz] at hc
        exact hcons c hc
      · rw [if_neg hz] at hc
        exact toDigitsCore_ne_colon b f (n / b) _ hcons c hc

theorem toString_nat_ne_colon (n : Nat) : ∀ c ∈ (toString n).data, c ≠ ':' := by
  intro c hc
  have hdata : (toString n).data = Nat.toDigits 10 n := rfl
  rw [hdata, Nat.toDigits] at hc
  exact toDigitsCore_ne_colon 10 (n + 1) n [] (by intro x hx; simp at hx) c hc

theorem toString_nat_colon_count (n : Nat) : (toString n).data.count ':' = 0 :=
  List.count_eq_zero.2 fun hmem => toString_nat_ne_colon n ':' hmem rfl

/-! ### The claim-side grammar of relationship versions -/

/-- The optional epoch segment of the claim grammar: empty, or a
non-empty run of decimal digits followed by a colon. -/
def EpochPart (e : List Char) : Prop :=
  e = [] ∨ ∃ d : List Char, d ≠ [] ∧ (∀ c ∈ d, c.isDigit = true) ∧ e = d ++ [':']

/-- The mandatory body of the claim grammar: a non-empty run of
alphanumeric, dot or underscore characters. -/
def BodyPart (b : List Char) : Prop :=
  b ≠ [] ∧ ∀ c ∈ b, isVersionChar c = true

/-- The optional release suffix of the claim grammar: empty, or a hyphen
followed by a release number (a positive decimal without leading zero). -/
def ReleasePart (r : List Char) : Prop :=
  r = [] ∨ ∃ (c : Char) (cs : List Char),
    ('1' ≤ c ∧ c ≤ '9') ∧ (∀ x ∈ cs, x.isDigit = true) ∧ r = '-' :: c :: cs

/-- The claim-side grammar of relationship versions: optional epoch
prefix, non-empty body, optional release suffix. -/
def RelatedVersionGrammar (s : String) : Prop :=
  ∃ e b r, EpochPart e ∧ BodyPart b ∧ ReleasePart r ∧ s.data = e ++ b ++ r

theorem isReleaseNum_iff {n : List Char} :
    isReleaseNum n = true ↔
      ∃ (c : Char) (cs : List Char),
        ('1' ≤ c ∧ c ≤ '9') ∧ (∀ x ∈ cs, x.isDigit = true) ∧ n = c :: cs := by
  cases n with
  | nil => simp [isReleaseNum]
  | cons c cs =>
      rw [isReleaseNum]
      simp only [Bool.and_eq_true, decide_eq_true_eq, List.all_eq_true]
      constructor
      · rintro ⟨⟨h1, h2⟩, hall⟩
        exact ⟨c, cs, ⟨h1, h2⟩, hall, rfl⟩
      · rintro ⟨c1, cs1, hc, hall, heq⟩
        injection heq with e1 e2
        subst e1
        subst e2
        exact ⟨hc, hall⟩

theorem matchBodyRelease_iff {l : List Char} :
    matchBodyRelease l = true ↔ ∃ b r, BodyPart b ∧ ReleasePart r ∧ l = b ++ r := by
  constructor
  · intro h
    rw [matchBodyRelease, Bool.and_eq_true] at h
    obtain ⟨h1, h2⟩ := h
    have hne : l.takeWhile isVersionChar ≠ [] := by
      simpa using h1
    have hbody : ∀ c ∈ l.takeWhile isVersionChar, isVersionChar c = true :=
      fun _ hc => mem_takeWhile hc
    have hsplit : l.takeWhile isVersionChar ++ l.dropWhile isVersionChar = l :=
      List.takeWhile_append_dropWhile isVersionChar l
    split at h2
    · next heq =>
        refine ⟨l.takeWhile isVersionChar, [], ⟨hne, hbody⟩, Or.inl rfl, ?_⟩
        rw [List.append_nil]
        conv_lhs => rw [← hsplit]
        rw [heq, List.append_nil]
    · next r heq =>
        obtain ⟨c, cs, hc, hcs, rfl⟩ := isReleaseNum_iff.1 h2
        refine ⟨l.takeWhile isVersionChar, '-' :: c :: cs,
          ⟨hne, hbody⟩, Or.inr ⟨c, cs, hc, hcs, rfl⟩, ?_⟩
        conv_lhs => rw [← hsplit]
        rw [heq]
    · next => exact absurd h2 (by simp)
  · rintro ⟨b, r, ⟨hbne, hball⟩, hrel, rfl⟩
    rw [matchBodyRelease, Bool.and_eq_true]
    rcases hrel with rfl | ⟨c, cs, hc, hcs, rfl⟩
    · have htake : (b ++ ([] : List Char)).takeWhile isVersionChar = b := by
        rw [List.takeWhile_append_of_pos hball]
        simp
      have hdrop : (b ++ ([] : List Char)).dropWhile isVersionChar = [] := by
        rw [List.dropWhile_append_of_pos hball]
        simp
      refine ⟨?_, ?_⟩
      · rw [htake]
        simpa using hbne
      · rw [hdrop]
    · have hneg : ¬ (isVersionChar '-' = true) := by decide
      have htake : (b ++ '-' :: c :: cs).takeWhile isVersionChar = b := by
        rw [List.takeWhile_append_of_pos hball, List.takeWhile_cons_of_neg hneg]
        simp
      have hdrop : (b ++ '-' :: c :: cs).dropWhile isVersionChar = '-' :: c :: cs := by
        rw [List.dropWhile_append_of_pos hball, List.dropWhile_cons_of_neg hneg]
      refine ⟨?_, ?_⟩
      · rw [htake]
        simpa using hbne
      · rw [hdrop]
        exact isReleaseNum_iff.2 ⟨c, cs, hc, hcs, rfl⟩

theorem hasColon_eq_true_iff {l : List Char} : hasColon l = true ↔ ':' ∈ l := by
  simp [hasColon, List.any_eq_true, beq_iff_eq]

theorem bodyRelease_no_colon {b r : List Char}
    (hb : BodyPart b) (hr : ReleasePart r) : ':' ∉ b ++ r := by
  intro hmem
  rcases List.mem_append.1 hmem with hmb | hmr
  · have := hb.2 ':' hmb
    simp [isVersionChar, Char.isAlpha, Char.isDigit, Char.isUpper, Char.isLower] at this
  · rcases hr with rfl | ⟨c, cs, hc, hcs, rfl⟩
    · simp at hmr
    · rcases List.mem_cons.1 hmr with heq | hmr1
      · exact absurd heq (by decide)
      · rcases List.mem_cons.1 hmr1 with heq | hmr2
        · rw [← heq] at hc
          exact absurd hc.2 (by decide)
        · have := hcs ':' hmr2
          simp [Char.isDigit] at this

theorem matchRelatedVersion_iff_grammar (s : String) :
    matchRelatedVersion s.data = true ↔ RelatedVersionGrammar s := by
  constructor
  · intro h
    rw [matchRelatedVersion] at h
    split at h
    · next hcol =>
        rw [Bool.and_eq_true] at h
        obtain ⟨h1, h2⟩ := h
        have hdne : s.data.takeWhile Char.isDigit ≠ [] := by
          simpa using h1
        have hdall : ∀ c ∈ s.data.takeWhile Char.isDigit, c.isDigit = true :=
          fun _ hc => mem_takeWhile hc
        have hsplit :
            s.data.takeWhile Char.isDigit ++ s.data.dropWhile Char.isDigit = s.data :=
          List.takeWhile_append_dropWhile Char.isDigit s.data
        split at h2
        · next r heq =>
            obtain ⟨b, r1, hb, hr, rfl⟩ := matchBodyRelease_iff.1 h2
            refine ⟨s.data.takeWhile Char.isDigit ++ [':'], b, r1,
              Or.inr ⟨s.data.takeWhile Char.isDigit, hdne, hdall, rfl⟩, hb, hr, ?_⟩
            conv_lhs => rw [← hsplit]
            rw [heq]
            simp
        · next => exact absurd h2 (by simp)
    · next hcol =>
        obtain ⟨b, r, hb, hr, heq⟩ := matchBodyRelease_iff.1 h
        refine ⟨[], b, r, Or.inl rfl, hb, hr, ?_⟩
        rw [List.nil_append]
        exact heq
  · rintro ⟨e, b, r, he, hb, hr, hdata⟩
    rw [matchRelatedVersion]
    rcases he with rfl | ⟨d, hdne, hdall, rfl⟩
    · have hnc : ¬ hasColon s.data = true := by
        rw [hasColon_eq_true_iff, hdata, List.nil_append]
        exact bodyRelease_no_colon hb hr
      rw [if_neg hnc, hdata, List.nil_append]
      exact matchBodyRelease_iff.2 ⟨b, r, hb, hr, rfl⟩
    · have hdata1 : s.data = d ++ ':' :: (b ++ r) := by
        rw [hdata]
        simp
      have hcol : hasColon s.data = true := by
        rw [hasColon_eq_true_iff, hdata1]
        simp
      have hnegd : ¬ (Char.isDigit ':' = true) := by decide
      rw [if_pos hcol, hdata1, Bool.and_eq_true]
      have htake : (d ++ ':' :: (b ++ r)).takeWhile Char.isDigit = d := by
        rw [List.takeWhile_append_of_pos hdall, List.takeWhile_cons_of_neg hnegd]
        simp
      have hdrop : (d ++ ':' :: (b ++ r)).dropWhile Char.isDigit = ':' :: (b ++ r) := by
        rw [List.dropWhile_append_of_pos hdall, List.dropWhile_cons_of_neg hnegd]
      refine ⟨?_, ?_⟩
      · rw [htake]
        simpa using hdne
      · rw [hdrop]
        exact matchBodyRelease_iff.2 ⟨b, r, hb, hr, rfl⟩

/-! ### Claim theorems -/

/-- Claim C9: for every package, RecommendedFileName is exactly the name,
the version formatter output and the target-format architecture string
joined by hyphens, with the fixed container suffix. -/
theorem claim_C9_recommended_file_name (pkg : Package) :
    RecommendedFileName pkg =
      pkg.name ++ "-" ++ fullVersionString pkg ++ "-" ++
        archMap pkg.architecture ++ ".pkg.tar.xz" := rfl

/-- Claim C5: the version formatter yields epoch-colon-version-hyphen-release
for a positive epoch and version-hyphen-release for epoch zero; when the
version itself carries no colon, the output has no colon for epoch zero
and exactly one colon for a positive epoch. -/
theorem claim_C5_full_version_format (pkg : Package) :
    (pkg.epoch = 0 →
      fullVersionString pkg = pkg.version ++ "-" ++ toString pkg.release) ∧
    (0 < pkg.epoch →
      fullVersionString pkg =
        toString pkg.epoch ++ ":" ++ (pkg.version ++ "-" ++ toString pkg.release)) ∧
    (pkg.version.data.count ':' = 0 →
      (pkg.epoch = 0 → (fullVersionString pkg).data.count ':' = 0) ∧
      (0 < pkg.epoch → (fullVersionString pkg).data.count ':' = 1)) := by
  have hdash : ("-" : String).data.count ':' = 0 := by decide
  have hcolon : (":" : String).data.count ':' = 1 := by decide
  refine ⟨?_, ?_, ?_⟩
  · intro h
    simp [fullVersionString, h]
  · intro h
    simp [fullVersionString, h]
  · intro hv
    refine ⟨?_, ?_⟩
    · intro h
      simp [fullVersionString, h, String.data_append, List.count_append, hv,
        toString_nat_colon_count, hdash]
    · intro h
      simp [fullVersionString, h, String.data_append, List.count_append, hv,
        toString_nat_colon_count, hdash, hcolon]

/-- Claim C8: the relationship-version grammar of Validate accepts exactly
the strings made of an optional epoch prefix (a non-empty digit run and a
colon), a non-empty run of alphanumeric, dot or underscore characters,
and an optional release suffix (a hyphen and a positive decimal number
without leading zero); everything else falls outside the grammar and is
reported as a violation by the batch validator. -/
theorem claim_C8_related_version_exact (s : String) :
    matchRelatedVersion s.data = true ↔ RelatedVersionGrammar s :=
  matchRelatedVersion_iff_grammar s

/-- Claim C1: whenever Build returns an error, from control-record
generation, manifest generation or archive serialization, it returns no
archive bytes; the serializer hypothesis is the spec's guarantee that a
failing serialization writes no partial output. -/
theorem claim_C1_build_error_empty
    (archive : FSTree → List Nat × Option String) (pkg : Package)
    (hnp : ∀ t, (archive t).2 ≠ none → (archive t).1 = [])
    (herr : (BuildWith archive pkg).2 ≠ none) :
    (BuildWith archive pkg).1 = [] := by
  rcases hpk : writePKGINFO (PrepareBuild pkg) (PrepareBuild pkg).fsRoot with ⟨t1, e1⟩
  cases e1 with
  | some e =>
      simp only [BuildWith, hpk]
  | none =>
      rcases hmt : writeMTREE (writeINSTALL (PrepareBuild pkg) t1) with ⟨t3, e3⟩
      cases e3 with
      | some e =>
          simp only [BuildWith, hpk, hmt]
      | none =>
          simp only [BuildWith, hpk, hmt] at herr ⊢
          exact hnp t3 herr

/-- Witness for claim C1 at a package whose replaces entry violates the
name grammar, with the modelled serializer. -/
theorem claim_C1_build_error_empty_witness :
    (BuildWith ToTarXZArchive pkgBadRel).2 ≠ none ∧
    (BuildWith ToTarXZArchive pkgBadRel).1 = [] :=
  ⟨by decide,
   claim_C1_build_error_empty ToTarXZArchive pkgBadRel
     (fun t h => absurd rfl h) (by decide)⟩

/-- Claim C7: when the first failing relationship compilation, in source
order replaces, conflicts, provides, requires, yields an error, the
control-record writer returns that error and leaves the payload tree
unchanged. -/
theorem claim_C7_rel_error_aborts (pkg : Package) (tree : FSTree) (e : String)
    (h : compilePackageRequirements "replaces" pkg.replaces = .error e ∨
      (∃ r1, compilePackageRequirements "replaces" pkg.replaces = .ok r1 ∧
        compilePackageRequirements "conflict" pkg.conflicts = .error e) ∨
      (∃ r1 r2, compilePackageRequirements "replaces" pkg.replaces = .ok r1 ∧
        compilePackageRequirements "conflict" pkg.conflicts = .ok r2 ∧
        compilePackageRequirements "provides" pkg.provides = .error e) ∨
      (∃ r1 r2 r3, compilePackageRequirements "replaces" pkg.replaces = .ok r1 ∧
        compilePackageRequirements "conflict" pkg.conflicts = .ok r2 ∧
        compilePackageRequirements "provides" pkg.provides = .ok r3 ∧
        compilePackageRequirements "depend" pkg.requires = .error e)) :
    writePKGINFO pkg tree = (tree, some e) := by
  rcases h with h1 | ⟨r1, h1, h2⟩ | ⟨r1, r2, h1, h2, h3⟩ | ⟨r1, r2, r3, h1, h2, h3, h4⟩
  · simp only [writePKGINFO, pkginfoContents, h1]
  · simp only [writePKGINFO, pkginfoContents, h1, h2]
  · simp only [writePKGINFO, pkginfoContents, h1, h2, h3]
  · simp only [writePKGINFO, pkginfoContents, h1, h2, h3, h4]

/-- Witness for claim C7 at a package whose replaces entry has an invalid
name. -/
theorem claim_C7_rel_error_aborts_witness :
    writePKGINFO pkgBadRel pkgBadRel.fsRoot =
      (pkgBadRel.fsRoot, some "invalid package relation: Bad Name") :=
  claim_C7_rel_error_aborts pkgBadRel pkgBadRel.fsRoot _ (Or.inl rfl)

/-- Claim C2: when all four relationship compilations succeed, the
control-record member holds exactly, in order: the provenance comment,
name, full version, normalized description, empty URL, packager (author
or placeholder), installed size, architecture string, fixed license, the
replaces, conflicts and provides blocks, the backup markers, the requires
block, the fixed build-dependency line and the fixed build-option flag
block; it is inserted at the reserved path with mode 0644. -/
theorem claim_C2_pkginfo_exact (pkg : Package) (tree : FSTree)
    (rE cF pV dP : String)
    (h1 : compilePackageRequirements "replaces" pkg.replaces = .ok rE)
    (h2 : compilePackageRequirements "conflict" pkg.conflicts = .ok cF)
    (h3 : compilePackageRequirements "provides" pkg.provides = .ok pV)
    (h4 : compilePackageRequirements "depend" pkg.requires = .ok dP) :
    writePKGINFO pkg tree =
      (tree.set ".PKGINFO" (Node.regularFile
        ("# Generated by holo-build\n" ++
          ("pkgname = " ++ pkg.name ++ "\n") ++
          ("pkgver = " ++ fullVersionString pkg ++ "\n") ++
          ("pkgdesc = " ++ normalizeDescription pkg.description ++ "\n") ++
          "url = \n" ++
          (if pkg.author = "" then "packager = Unknown Packager\n"
           else "packager = " ++ pkg.author ++ "\n") ++
          ("size = " ++ toString (InstalledSizeInBytes tree) ++ "\n") ++
          ("arch = " ++ archMap pkg.architecture ++ "\n") ++
          "license = custom:none\n" ++
          rE ++ cF ++ pV ++
          compileBackupMarkers (WalkFSWithRelativePaths tree) ++
          dP ++
          "makedepend = holo-build\n" ++
          "makepkgopt = !strip\n" ++
          "makepkgopt = docs\n" ++
          "makepkgopt = libtool\n" ++
          "makepkgopt = staticlibs\n" ++
          "makepkgopt = emptydirs\n" ++
          "makepkgopt = !zipman\n" ++
          "makepkgopt = !purge\n" ++
          "makepkgopt = !upx\n" ++
          "makepkgopt = !debug\n") 0o644), none) := by
  simp only [writePKGINFO, pkginfoContents, h1, h2, h3, h4]

/-- Witness for claim C2 at a package with one relation of every kind. -/
theorem claim_C2_pkginfo_exact_witness :
    writePKGINFO pkgRel pkgRel.fsRoot =
      (pkgRel.fsRoot.set ".PKGINFO" (Node.regularFile
        ("# Generated by holo-build\n" ++
          ("pkgname = " ++ pkgRel.name ++ "\n") ++
          ("pkgver = " ++ fullVersionString pkgRel ++ "\n") ++
          ("pkgdesc = " ++ normalizeDescription pkgRel.description ++ "\n") ++
          "url = \n" ++
          (if pkgRel.author = "" then "packager = Unknown Packager\n"
           else "packager = " ++ pkgRel.author ++ "\n") ++
          ("size = " ++ toString (InstalledSizeInBytes pkgRel.fsRoot) ++ "\n") ++
          ("arch = " ++ archMap pkgRel.architecture ++ "\n") ++
          "license = custom:none\n" ++
          "replaces = oldpkg\n" ++ "conflict = otherpkg\n" ++ "provides = virt=1.0\n" ++
          compileBackupMarkers (WalkFSWithRelativePaths pkgRel.fsRoot) ++
          "depend = dep>=2:3.1-4\n" ++
          "makedepend = holo-build\n" ++
          "makepkgopt = !strip\n" ++
          "makepkgopt = docs\n" ++
          "makepkgopt = libtool\n" ++
          "makepkgopt = staticlibs\n" ++
          "makepkgopt = emptydirs\n" ++
          "makepkgopt = !zipman\n" ++
          "makepkgopt = !purge\n" ++
          "makepkgopt = !upx\n" ++
          "makepkgopt = !debug\n") 0o644), none) :=
  claim_C2_pkginfo_exact pkgRel pkgRel.fsRoot
    "replaces = oldpkg\n" "conflict = otherpkg\n" "provides = virt=1.0\n"
    "depend = dep>=2:3.1-4\n" rfl rfl rfl rfl

/-- Claim C4: whenever the control-record writer succeeds, the version
string inside RecommendedFileName and the version line of the inserted
control record are the same byte string. -/
theorem claim_C4_version_shared (pkg : Package) (t : FSTree)
    (h : writePKGINFO pkg pkg.fsRoot = (t, none)) :
    ∃ v pre post,
      RecommendedFileName pkg =
        pkg.name ++ "-" ++ v ++ "-" ++ archMap pkg.architecture ++ ".pkg.tar.xz" ∧
      t.get? ".PKGINFO" =
        some (Node.regularFile (pre ++ ("pkgver = " ++ v ++ "\n") ++ post) 0o644) := by
  cases h1 : compilePackageRequirements "replaces" pkg.replaces with
  | error e => simp only [writePKGINFO, pkginfoContents, h1, Prod.mk.injEq] at h; exact absurd h.2 (by simp)
  | ok rE =>
  cases h2 : compilePackageRequirements "conflict" pkg.conflicts with
  | error e => simp only [writePKGINFO, pkginfoContents, h1, h2, Prod.mk.injEq] at h; exact absurd h.2 (by simp)
  | ok cF =>
  cases h3 : compilePackageRequirements "provides" pkg.provides with
  | error e => simp only [writePKGINFO, pkginfoContents, h1, h2, h3, Prod.mk.injEq] at h; exact absurd h.2 (by simp)
  | ok pV =>
  cases h4 : compilePackageRequirements "depend" pkg.requires with
  | error e => simp only [writePKGINFO, pkginfoContents, h1, h2, h3, h4, Prod.mk.injEq] at h; exact absurd h.2 (by simp)
  | ok dP =>
      simp only [writePKGINFO, pkginfoContents, h1, h2, h3, h4, Prod.mk.injEq, and_true] at h
      refine ⟨fullVersionString pkg,
        "# Generated by holo-build\n" ++ ("pkgname = " ++ pkg.name ++ "\n"),
        ("pkgdesc = " ++ normalizeDescription pkg.description ++ "\n") ++
          "url = \n" ++
          (if pkg.author = "" then "packager = Unknown Packager\n"
           else "packager = " ++ pkg.author ++ "\n") ++
          ("size = " ++ toString (InstalledSizeInBytes pkg.fsRoot) ++ "\n") ++
          ("arch = " ++ archMap pkg.architecture ++ "\n") ++
          "license = custom:none\n" ++
          rE ++ cF ++ pV ++
          compileBackupMarkers (WalkFSWithRelativePaths pkg.fsRoot) ++
          dP ++
          "makedepend = holo-build\n" ++
          "makepkgopt = !strip\n" ++
          "makepkgopt = docs\n" ++
          "makepkgopt = libtool\n" ++
          "makepkgopt = staticlibs\n" ++
          "makepkgopt = emptydirs\n" ++
          "makepkgopt = !zipman\n" ++
          "makepkgopt = !purge\n" ++
          "makepkgopt = !upx\n" ++
          "makepkgopt = !debug\n", rfl, ?_⟩
      rw [← h, get?_set_self]
      simp only [Option.some.injEq, Node.regularFile.injEq, String.append_assoc, and_true]

/-- Witness for claim C4 at the basic package. -/
theorem claim_C4_version_shared_witness :
    ∃ v pre post,
      RecommendedFileName pkgBasic =
        pkgBasic.name ++ "-" ++ v ++ "-" ++
          archMap pkgBasic.architecture ++ ".pkg.tar.xz" ∧
      (writePKGINFO pkgBasic pkgBasic.fsRoot).1.get? ".PKGINFO" =
        some (Node.regularFile (pre ++ ("pkgver = " ++ v ++ "\n") ++ post) 0o644) :=
  claim_C4_version_shared pkgBasic (writePKGINFO pkgBasic pkgBasic.fsRoot).1 rfl

/-- Witness for claim C5 at the epoch-zero and epoch-two packages. -/
theorem claim_C5_full_version_format_witness :
    fullVersionString pkgBasic = "1.0-1" ∧
    fullVersionString pkgEpoch = "2:1.0-1" ∧
    (fullVersionString pkgBasic).data.count ':' = 0 ∧
    (fullVersionString pkgEpoch).data.count ':' = 1 := by
  have h0 := claim_C5_full_version_format pkgBasic
  have h2 := claim_C5_full_version_format pkgEpoch
  refine ⟨(h0.1 rfl).trans (by decide), (h2.2.1 (by decide)).trans (by decide),
    (h0.2.2 (by decide)).1 rfl, (h2.2.2 (by decide)).2 (by decide)⟩

/-- Claim C6: the install-script member is absent when both lifecycle
bodies are empty; when the setup body is non-empty the member starts with
a post-install hook wrapping it followed by a post-upgrade hook that
invokes post-install; when the cleanup body is non-empty the member ends
with a post-remove hook wrapping it. -/
theorem claim_C6_install_member (pkg : Package) (tree : FSTree) :
    (pkg.setupScript = "" → pkg.cleanupScript = "" → writeINSTALL pkg tree = tree) ∧
    (pkg.setupScript ≠ "" → ∃ rest,
      writeINSTALL pkg tree =
        tree.set ".INSTALL" (Node.regularFile
          (("post_install() \x7b\n" ++ pkg.setupScript ++
            "\n\x7d\npost_upgrade() \x7b\npost_install\n\x7d\n") ++ rest) 0o644)) ∧
    (pkg.cleanupScript ≠ "" → ∃ pre,
      writeINSTALL pkg tree =
        tree.set ".INSTALL" (Node.regularFile
          (pre ++ ("post_remove() \x7b\n" ++ pkg.cleanupScript ++ "\n\x7d\n")) 0o644)) := by
  refine ⟨?_, ?_, ?_⟩
  · intro h1 h2
    rw [writeINSTALL]
    simp only [h1, h2, ne_eq, not_true_eq_false, if_false, ite_false]
    rw [if_pos (by decide)]
  · intro hs
    refine ⟨(if pkg.cleanupScript ≠ "" then
      "post_remove() \x7b\n" ++ pkg.cleanupScript ++ "\n\x7d\n" else ""), ?_⟩
    rw [writeINSTALL]
    simp only [hs, ne_eq, not_false_eq_true, if_true, ite_true]
    rw [if_neg ?hne]
    case hne =>
      intro hC
      have h0 := congrArg String.data hC
      simp only [String.data_append, List.append_eq_nil] at h0
      exact absurd h0.1.1.1 (by decide)
  · intro hc
    refine ⟨(if pkg.setupScript ≠ "" then
      "post_install() \x7b\n" ++ pkg.setupScript ++
        "\n\x7d\npost_upgrade() \x7b\npost_install\n\x7d\n" else ""), ?_⟩
    rw [writeINSTALL]
    simp only [hc, ne_eq, not_false_eq_true, if_true, ite_true]
    rw [if_neg ?hne2]
    case hne2 =>
      intro hC
      have h0 := congrArg String.data hC
      simp only [String.data_append, List.append_eq_nil] at h0
      exact absurd h0.2.1.1 (by decide)

/-- Witness for claim C6 at packages with both, one and no lifecycle
scripts. -/
theorem claim_C6_install_member_witness :
    writeINSTALL pkgBasic pkgBasic.fsRoot = pkgBasic.fsRoot ∧
    (∃ rest,
      writeINSTALL pkgRel pkgRel.fsRoot =
        pkgRel.fsRoot.set ".INSTALL" (Node.regularFile
          (("post_install() \x7b\n" ++ pkgRel.setupScript ++
            "\n\x7d\npost_upgrade() \x7b\npost_install\n\x7d\n") ++ rest) 0o644)) ∧
    (∃ pre,
      writeINSTALL pkgCleanupOnly pkgCleanupOnly.fsRoot =
        pkgCleanupOnly.fsRoot.set ".INSTALL" (Node.regularFile
          (pre ++ ("post_remove() \x7b\n" ++ pkgCleanupOnly.cleanupScript ++
            "\n\x7d\n")) 0o644)) :=
  ⟨(claim_C6_install_member pkgBasic pkgBasic.fsRoot).1 rfl rfl,
   (claim_C6_install_member pkgRel pkgRel.fsRoot).2.1 (by decide),
   (claim_C6_install_member pkgCleanupOnly pkgCleanupOnly.fsRoot).2.2 (by decide)⟩

/-- A walk with two regular files whose paths are a string and a strict
extension of it by a tab character (a byte below the newline). -/
def wTab : List (String × Node) :=
  [("a", Node.regularFile "x" 0o644), ("a\t", Node.regularFile "y" 0o644)]

/-- The same walk in the opposite traversal order. -/
def wTabRev : List (String × Node) :=
  [("a\t", Node.regularFile "y" 0o644), ("a", Node.regularFile "x" 0o644)]

/-- Counterexample to claim C3 as stated: the emitted lines are sorted as
whole line strings, not by path.  Here the path "a" precedes the path
"a\t" in the byte order, yet the output puts the line of "a\t" first,
because the appended newline byte of the line of "a" compares above the
tab; the by-path-sorted output would be the second string, and the actual
output differs from it. -/
theorem claim_C3_counterexample :
    compileBackupMarkers wTab = "backup = a\t\nbackup = a\n" ∧
    StrLeR "a" "a\t" ∧ "a" ≠ "a\t" ∧
    compileBackupMarkers wTab ≠ "backup = a\nbackup = a\t\n" :=
  ⟨rfl, by decide, by decide, by decide⟩

/-- Claim C3 as amended: for every walk and every permutation of its
traversal order, the output holds exactly one line per regular-file entry
not under the reserved prefix (the multiset of sorted lines is a
permutation of the selected lines), the lines are sorted in the byte
order of the whole line strings, and the joined output is identical for
all traversal orders. -/
theorem claim_C3_backup_markers (w1 w2 : List (String × Node))
    (hperm : w1.Perm w2) :
    compileBackupMarkers w1 = compileBackupMarkers w2 ∧
    (List.insertionSort StrLeR (w1.filterMap backupLine)).Perm
      (w1.filterMap backupLine) ∧
    List.Sorted StrLeR (List.insertionSort StrLeR (w1.filterMap backupLine)) := by
  refine ⟨?_, List.perm_insertionSort StrLeR _, List.sorted_insertionSort StrLeR _⟩
  have hl : (w1.filterMap backupLine).Perm (w2.filterMap backupLine) :=
    hperm.filterMap backupLine
  have h1 : (List.insertionSort StrLeR (w1.filterMap backupLine)).Perm
      (List.insertionSort StrLeR (w2.filterMap backupLine)) :=
    ((List.perm_insertionSort StrLeR _).trans hl).trans
      (List.perm_insertionSort StrLeR _).symm
  have heq := List.eq_of_perm_of_sorted h1
    (List.sorted_insertionSort StrLeR _) (List.sorted_insertionSort StrLeR _)
  rw [compileBackupMarkers, compileBackupMarkers, heq]

/-- Witness for the amended claim C3 at the two-file walk and its
reversal. -/
theorem claim_C3_backup_markers_witness :
    compileBackupMarkers wTab = compileBackupMarkers wTabRev ∧
    (List.insertionSort StrLeR (wTab.filterMap backupLine)).Perm
      (wTab.filterMap backupLine) ∧
    List.Sorted StrLeR (List.insertionSort StrLeR (wTab.filterMap backupLine)) :=
  claim_C3_backup_markers wTab wTabRev (List.Perm.swap _ _ _)

/-- Claim C10: the backup exclusion tests the literal prefix with the
trailing slash, so a regular file whose path extends "usr/share/holo"
without the slash still receives its backup line among the emitted
lines. -/
theorem claim_C10_holo_prefix_literal (walk : List (String × Node))
    (p content : String) (mode : Nat)
    (hmem : (p, Node.regularFile content mode) ∈ walk)
    (hp14 : ("usr/share/holo".data).isPrefixOf p.data = true)
    (hnp : ¬ ("usr/share/holo/".data).isPrefixOf p.data = true) :
    ("backup = " ++ p ++ "\n") ∈
      List.insertionSort StrLeR (walk.filterMap backupLine) := by
  rw [List.mem_insertionSort]
  exact List.mem_filterMap.2
    ⟨(p, Node.regularFile content mode), hmem, by simp [backupLine, hnp]⟩

/-- Witness for claim C10 at a sibling path of the reserved directory. -/
theorem claim_C10_holo_prefix_literal_witness :
    ("backup = usr/share/holofoo\n") ∈
      List.insertionSort StrLeR
        ([("usr/share/holofoo", Node.regularFile "c" 0o644)].filterMap backupLine) :=
  claim_C10_holo_prefix_literal _ "usr/share/holofoo" "c" 0o644
    (by decide) (by decide) (by decide)

end Pacman
